import Mathlib

set_option autoImplicit false

/-!
Shallow embedding of the trading-strategy backtesting system (positions,
portfolio accounting, the bar-by-bar backtester, the performance analyzer
and the parameter optimizer) together with theorems settling the frozen
claims about it.  Prices, sizes and money amounts are modelled as exact
rationals; timestamps as naturals.
-/

/-- Trading position, from src/backtester/position.py.  `exit_price`,
`exit_timestamp` and `pnl` start as None (`Option.none`). -/
structure Position where
  symbol : String
  direction : String
  entry_price : ℚ
  size : ℚ
  timestamp : ℕ
  exit_price : Option ℚ := none
  exit_timestamp : Option ℕ := none
  pnl : Option ℚ := none
deriving DecidableEq

namespace Position

/-- Position.calculate_pnl: computes the directional P&L of the position at
`current_price` and assigns it to the `pnl` field (the Python method sets
`self.pnl` before returning it).  The result is the returned value paired
with the updated position. -/
def calculate_pnl (p : Position) (current_price : ℚ) : ℚ × Position :=
  let v := if p.direction = "long"
    then (current_price - p.entry_price) * p.size
    else (p.entry_price - current_price) * p.size
  (v, { p with pnl := some v })

/-- Position.close: records the exit price and timestamp, then recomputes
the P&L at the exit price via calculate_pnl. -/
def close (p : Position) (exit_price : ℚ) (timestamp : ℕ) : Position :=
  let p1 := { p with exit_price := some exit_price, exit_timestamp := some timestamp }
  (p1.calculate_pnl exit_price).2

/-- Position.get_value: notional value of the position at a price. -/
def get_value (p : Position) (current_price : ℚ) : ℚ :=
  p.size * current_price

/-- Position.get_unrealized_pnl: delegates to calculate_pnl (and therefore
also stores the computed value in the `pnl` field). -/
def get_unrealized_pnl (p : Position) (current_price : ℚ) : ℚ × Position :=
  p.calculate_pnl current_price

end Position

/-- One record of Portfolio.trade_history, as built by
Portfolio._record_trade. -/
structure TradeRecord where
  timestamp : ℕ
  symbol : String
  action : String
  direction : String
  price : Option ℚ
  size : ℚ
  pnl : Option ℚ
  cash : ℚ
  equity : ℚ
deriving DecidableEq

/-- Python-dict assignment `d[k] = v` on an association list: replace the
value in place when the key is present, otherwise append the new entry at
the end (insertion order preserved, as for Python dicts). -/
def dictInsert {α : Type} (l : List (String × α)) (k : String) (v : α) :
    List (String × α) :=
  match l with
  | [] => [(k, v)]
  | (k0, v0) :: rest =>
    if k0 = k then (k, v) :: rest else (k0, v0) :: dictInsert rest k v

/-- Python-dict deletion `del d[k]` on an association list: drop the first
entry with the given key. -/
def dictErase {α : Type} (l : List (String × α)) (k : String) :
    List (String × α) :=
  match l with
  | [] => []
  | (k0, v0) :: rest =>
    if k0 = k then rest else (k0, v0) :: dictErase rest k

/-- Python-dict lookup `d.get(k)` on an association list. -/
def dictGet? {α : Type} (l : List (String × α)) (k : String) : Option α :=
  match l with
  | [] => none
  | (k0, v0) :: rest => if k0 = k then some v0 else dictGet? rest k

/-- Portfolio state, from src/backtester/portfolio.py.  The symbol-keyed
dict of open positions is an insertion-ordered association list. -/
structure Portfolio where
  initial_capital : ℚ
  cash : ℚ
  equity : ℚ
  positions : List (String × Position)
  closed_positions : List Position
  trade_history : List TradeRecord
deriving DecidableEq

namespace Portfolio

/-- Portfolio.__init__. -/
def init (initial_capital : ℚ) : Portfolio :=
  { initial_capital := initial_capital
    cash := initial_capital
    equity := initial_capital
    positions := []
    closed_positions := []
    trade_history := [] }

/-- Portfolio.has_sufficient_funds. -/
def has_sufficient_funds (pf : Portfolio) (required_margin : ℚ) : Bool :=
  required_margin ≤ pf.cash

/-- Portfolio.update_equity: sums `pos.get_unrealized_pnl(pos.entry_price)`
over the open positions — the code marks each open position at its own
entry price (its inline comment notes the latest price should be used
instead) — and sets equity to cash plus that sum.  Because
get_unrealized_pnl assigns `pos.pnl`, the stored open positions are updated
as well. -/
def update_equity (pf : Portfolio) : Portfolio :=
  { pf with
    positions := pf.positions.map
      (fun kv => (kv.1, (kv.2.get_unrealized_pnl kv.2.entry_price).2))
    equity := pf.cash +
      (pf.positions.map (fun kv => (kv.2.get_unrealized_pnl kv.2.entry_price).1)).sum }

/-- Portfolio._record_trade: appends one audit record; `price` is the entry
price for an "open" action and the exit price otherwise, `pnl` is only
recorded for a "close" action. -/
def record_trade (pf : Portfolio) (position : Position) (action : String) :
    Portfolio :=
  { pf with trade_history := pf.trade_history ++
      [{ timestamp := position.timestamp
         symbol := position.symbol
         action := action
         direction := position.direction
         price := if action = "open" then some position.entry_price else position.exit_price
         size := position.size
         pnl := if action = "close" then position.pnl else none
         cash := pf.cash
         equity := pf.equity }] }

/-- Portfolio.add_position: margin is the notional at entry; raises
ValueError (modelled as `Except.error`) when funds are insufficient;
otherwise debits cash, assigns the symbol key of the open-positions dict
(replacing any entry already stored under that key, as Python dict
assignment does), recomputes equity and records an "open" trade. -/
def add_position (pf : Portfolio) (position : Position) :
    Except String Portfolio :=
  let margin := position.get_value position.entry_price
  if pf.has_sufficient_funds margin then
    let pf1 := { pf with
      cash := pf.cash - margin
      positions := dictInsert pf.positions position.symbol position }
    let pf2 := pf1.update_equity
    .ok (pf2.record_trade position "open")
  else
    .error "Insufficient funds to open position"

/-- Portfolio.remove_position: a no-op when the symbol is not an open key;
otherwise closes the given position at `exit_price` (the wall-clock close
timestamp is the `now` argument), credits cash by the exit notional,
deletes the symbol key, appends to the closed log, recomputes equity and
records a "close" trade. -/
def remove_position (pf : Portfolio) (position : Position) (exit_price : ℚ)
    (now : ℕ) : Portfolio :=
  if (dictGet? pf.positions position.symbol).isNone then pf
  else
    let closed := position.close exit_price now
    let pf1 := { pf with
      cash := pf.cash + closed.get_value exit_price
      positions := dictErase pf.positions position.symbol
      closed_positions := pf.closed_positions ++ [closed] }
    let pf2 := pf1.update_equity
    pf2.record_trade closed "close"

end Portfolio

/-- A mutating portfolio operation: add_position, remove_position or a bare
update_equity call. -/
inductive PortfolioOp where
  | add (position : Position)
  | remove (position : Position) (exit_price : ℚ) (now : ℕ)
  | upd

/-- Applying one operation to a portfolio; a raised ValueError in
add_position leaves the portfolio unchanged. -/
def PortfolioOp.apply (pf : Portfolio) : PortfolioOp → Portfolio
  | .add position =>
    match pf.add_position position with
    | .ok pf2 => pf2
    | .error _ => pf
  | .remove position price now => pf.remove_position position price now
  | .upd => pf.update_equity

/-- Marking a position at its own entry price always yields zero P&L. -/
@[simp] theorem get_unrealized_pnl_at_entry (p : Position) :
    (p.get_unrealized_pnl p.entry_price).1 = 0 := by
  simp [Position.get_unrealized_pnl, Position.calculate_pnl]

@[simp] theorem update_equity_cash (pf : Portfolio) :
    pf.update_equity.cash = pf.cash := rfl

/-- update_equity always sets equity to cash: the per-position marks at the
entry price are identically zero. -/
@[simp] theorem update_equity_equity (pf : Portfolio) :
    pf.update_equity.equity = pf.cash := by
  show pf.cash + _ = pf.cash
  have h : (pf.positions.map
      (fun kv => (kv.2.get_unrealized_pnl kv.2.entry_price).1)).sum = 0 := by
    induction pf.positions with
    | nil => simp
    | cons kv rest ih => simp [ih]
  rw [h, add_zero]

@[simp] theorem record_trade_cash (pf : Portfolio) (p : Position) (a : String) :
    (pf.record_trade p a).cash = pf.cash := rfl

@[simp] theorem record_trade_equity (pf : Portfolio) (p : Position) (a : String) :
    (pf.record_trade p a).equity = pf.equity := rfl

/-- Every portfolio operation preserves the equality of equity and cash. -/
theorem PortfolioOp.apply_preserves (pf : Portfolio) (op : PortfolioOp)
    (h : pf.equity = pf.cash) : (op.apply pf).equity = (op.apply pf).cash := by
  cases op with
  | add position =>
    simp only [PortfolioOp.apply, Portfolio.add_position]
    by_cases hf : pf.has_sufficient_funds (position.get_value position.entry_price) = true
    · simp [hf]
    · simp [hf, h]
  | remove position price now =>
    simp only [PortfolioOp.apply, Portfolio.remove_position]
    by_cases hn : (dictGet? pf.positions position.symbol).isNone = true
    · simp [hn, h]
    · simp [hn]
  | upd => simp [PortfolioOp.apply]

theorem foldl_apply_preserves (ops : List PortfolioOp) (pf : Portfolio)
    (h : pf.equity = pf.cash) :
    (ops.foldl PortfolioOp.apply pf).equity
      = (ops.foldl PortfolioOp.apply pf).cash := by
  induction ops generalizing pf with
  | nil => simpa using h
  | cons op rest ih =>
    exact ih (op.apply pf) (PortfolioOp.apply_preserves pf op h)

/-- C10: after every sequence of add_position / remove_position /
update_equity operations starting from a fresh portfolio, equity equals
cash exactly, because update_equity marks every open position at its own
entry price, making the unrealized P&L sum identically zero. -/
theorem equity_always_equals_cash (c : ℚ) (ops : List PortfolioOp) :
    (ops.foldl PortfolioOp.apply (Portfolio.init c)).equity
      = (ops.foldl PortfolioOp.apply (Portfolio.init c)).cash :=
  foldl_apply_preserves ops (Portfolio.init c) rfl

/-- Sample long position used in the accounting scenarios: long 1 unit of
"X" at entry price 100. -/
def posLongX : Position :=
  { symbol := "X", direction := "long", entry_price := 100, size := 1, timestamp := 0 }

/-- C1: the failing accounting path.  Opening a long at 100 (size 1) from
1000 of cash leaves cash 900; with the latest price 110 the position's
mark-to-market P&L is 10, so the specified invariant demands equity
900 + 10 = 910, but update_equity (which marks at the entry price and takes
no current-price input at all) leaves equity at 900 = cash. -/
theorem update_equity_ignores_current_price :
    ((Portfolio.init 1000).add_position posLongX).map Portfolio.cash = .ok 900 ∧
    ((Portfolio.init 1000).add_position posLongX).map Portfolio.equity = .ok 900 ∧
    (posLongX.calculate_pnl 110).1 = 10 ∧
    ((Portfolio.init 1000).add_position posLongX).map Portfolio.equity ≠
      .ok (900 + (posLongX.calculate_pnl 110).1) := by
  refine ⟨?_, ?_, ?_, ?_⟩ <;>
    norm_num [Portfolio.init, Portfolio.add_position, Portfolio.has_sufficient_funds,
      Portfolio.update_equity, Portfolio.record_trade, Position.get_value,
      Position.get_unrealized_pnl, Position.calculate_pnl, posLongX, dictInsert,
      Except.map]

/-- C2 (amended): closing a position a second time does not fail; it behaves
exactly like a first close with the new arguments, silently overwriting the
exit price, exit timestamp and pnl. -/
theorem close_twice_takes_second_call (p : Position) (e1 : ℚ) (t1 : ℕ)
    (e2 : ℚ) (t2 : ℕ) : (p.close e1 t1).close e2 t2 = p.close e2 t2 := by
  simp [Position.close, Position.calculate_pnl]

/-- C2 counterexample: closing the long at 105 and then again at 110
succeeds and overwrites the exit price (110, not the original 105), the
exit timestamp and the pnl, instead of failing. -/
theorem close_twice_overwrites_cex :
    ((posLongX.close 105 1).close 110 2).exit_price = some 110 ∧
    ((posLongX.close 105 1).close 110 2).exit_price ≠ some 105 ∧
    ((posLongX.close 105 1).close 110 2).exit_timestamp = some 2 ∧
    ((posLongX.close 105 1).close 110 2).pnl = some 10 := by
  norm_num [Position.close, Position.calculate_pnl, posLongX]

@[simp] theorem get_unrealized_pnl_at_entry_snd (p : Position) :
    (p.get_unrealized_pnl p.entry_price).2 = { p with pnl := some 0 } := by
  simp [Position.get_unrealized_pnl, Position.calculate_pnl]

@[simp] theorem record_trade_positions (pf : Portfolio) (p : Position) (a : String) :
    (pf.record_trade p a).positions = pf.positions := rfl

@[simp] theorem update_equity_positions (pf : Portfolio) :
    pf.update_equity.positions = pf.positions.map
      (fun kv => (kv.1, (kv.2.get_unrealized_pnl kv.2.entry_price).2)) := rfl

theorem dictGet?_mark (l : List (String × Position)) (k : String) :
    dictGet? (l.map fun kv => (kv.1, (kv.2.get_unrealized_pnl kv.2.entry_price).2)) k
      = (dictGet? l k).map fun p => (p.get_unrealized_pnl p.entry_price).2 := by
  induction l with
  | nil => rfl
  | cons kv rest ih =>
    obtain ⟨k0, v0⟩ := kv
    simp only [List.map_cons, dictGet?]
    by_cases h : k0 = k
    · rw [if_pos h, if_pos h]
      rfl
    · rw [if_neg h, if_neg h]
      exact ih

theorem map_fst_mark (l : List (String × Position)) :
    (l.map fun kv => (kv.1, (kv.2.get_unrealized_pnl kv.2.entry_price).2)).map Prod.fst
      = l.map Prod.fst := by
  induction l with
  | nil => rfl
  | cons kv rest ih => simp [ih]

theorem dictGet?_dictInsert_self {α : Type} (l : List (String × α)) (k : String)
    (v : α) : dictGet? (dictInsert l k v) k = some v := by
  induction l with
  | nil => simp [dictInsert, dictGet?]
  | cons kv rest ih =>
    by_cases h : kv.1 = k <;> simp [dictInsert, dictGet?, h, ih]

theorem map_fst_dictInsert {α : Type} (l : List (String × α)) (k : String)
    (v : α) (h : (dictGet? l k).isSome = true) :
    (dictInsert l k v).map Prod.fst = l.map Prod.fst := by
  induction l with
  | nil => simp [dictGet?] at h
  | cons kv rest ih =>
    by_cases hk : kv.1 = k
    · simp [dictInsert, hk]
    · simp only [dictGet?, hk, if_neg, ite_false] at h
      simp [dictInsert, hk, ih h]

/-- C3 (amended): when the symbol of the new position is already an open
key and funds suffice for its margin, add_position succeeds (no
DuplicatePositionError exists in the code), silently replaces the stored
open position of that symbol with the new one (its `pnl` marked 0 by
update_equity), and keeps the key set unchanged, so the map still holds at
most one open position per symbol. -/
theorem add_position_replaces_duplicate (pf : Portfolio) (q : Position)
    (hdup : (dictGet? pf.positions q.symbol).isSome = true)
    (hfunds : pf.has_sufficient_funds (q.get_value q.entry_price) = true) :
    ∃ pf2, pf.add_position q = .ok pf2 ∧
      dictGet? pf2.positions q.symbol = some { q with pnl := some 0 } ∧
      pf2.positions.map Prod.fst = pf.positions.map Prod.fst := by
  simp only [Portfolio.add_position, hfunds, if_true]
  refine ⟨_, rfl, ?_, ?_⟩
  · show dictGet? (List.map (fun kv => (kv.1, (kv.2.get_unrealized_pnl kv.2.entry_price).2))
        (dictInsert pf.positions q.symbol q)) q.symbol = _
    rw [dictGet?_mark, dictGet?_dictInsert_self]
    simp
  · show (List.map (fun kv => (kv.1, (kv.2.get_unrealized_pnl kv.2.entry_price).2))
        (dictInsert pf.positions q.symbol q)).map Prod.fst = _
    rw [map_fst_mark, map_fst_dictInsert pf.positions q.symbol q hdup]

/-- Portfolio that already holds an open long position in symbol "X". -/
def pfDupX : Portfolio :=
  { initial_capital := 1000, cash := 900, equity := 900,
    positions := [("X", posLongX)], closed_positions := [], trade_history := [] }

/-- Short position in the already-occupied symbol "X". -/
def posShortX : Position :=
  { symbol := "X", direction := "short", entry_price := 50, size := 1, timestamp := 5 }

theorem add_position_replaces_duplicate_witness :
    (dictGet? pfDupX.positions posShortX.symbol).isSome = true ∧
    pfDupX.has_sufficient_funds (posShortX.get_value posShortX.entry_price) = true ∧
    (∃ pf2, pfDupX.add_position posShortX = .ok pf2 ∧
      dictGet? pf2.positions posShortX.symbol = some { posShortX with pnl := some 0 } ∧
      pf2.positions.map Prod.fst = pfDupX.positions.map Prod.fst) :=
  ⟨by simp [pfDupX, posShortX, dictGet?],
   by norm_num [pfDupX, posShortX, Portfolio.has_sufficient_funds, Position.get_value],
   add_position_replaces_duplicate pfDupX posShortX
     (by simp [pfDupX, posShortX, dictGet?])
     (by norm_num [pfDupX, posShortX, Portfolio.has_sufficient_funds, Position.get_value])⟩

/-- C3 counterexample: adding a second position in symbol "X" to a
portfolio that already holds an open "X" position raises nothing — the
call succeeds and the stored open position for "X" now has the new entry
price 50 instead of the original 100. -/
theorem add_position_duplicate_cex :
    (pfDupX.add_position posShortX).isOk = true ∧
    (pfDupX.add_position posShortX).map
      (fun pf2 => (dictGet? pf2.positions "X").map Position.entry_price) =
      .ok (some 50) ∧ (50 : ℚ) ≠ 100 := by
  refine ⟨?_, ?_, by norm_num⟩ <;>
    norm_num [pfDupX, posShortX, posLongX, Portfolio.add_position,
      Portfolio.has_sufficient_funds, Portfolio.update_equity,
      Portfolio.record_trade, Position.get_value, Position.get_unrealized_pnl,
      Position.calculate_pnl, dictInsert, dictGet?, Except.map, Except.isOk,
      Except.toBool]

/-- C7 (amended): calculate_pnl returns the directional P&L formula but is
not pure — it stores the computed value in the `pnl` field as a side
effect, so `pnl` is None only until the first calculate_pnl (or close)
call; the returned value depends only on direction, entry price and size,
so repeated mark-to-market calls return the same value and the state is
stable after the first call. -/
theorem calculate_pnl_computes_and_stores (p : Position) (c : ℚ) :
    (p.calculate_pnl c).1 = (if p.direction = "long"
        then (c - p.entry_price) * p.size else (p.entry_price - c) * p.size) ∧
    (p.calculate_pnl c).2 = { p with pnl := some (p.calculate_pnl c).1 } ∧
    ((p.calculate_pnl c).2.calculate_pnl c).1 = (p.calculate_pnl c).1 ∧
    ((p.calculate_pnl c).2.calculate_pnl c).2 = (p.calculate_pnl c).2 := by
  refine ⟨rfl, ?_, ?_, ?_⟩ <;> simp [Position.calculate_pnl]

/-- C7 counterexample: on an open position (never closed) a single
mark-to-market call calculate_pnl(105) already sets the `pnl` field to 5,
so the field is not None until close and the call mutates state. -/
theorem calculate_pnl_mutates_cex :
    posLongX.pnl = none ∧
    (posLongX.calculate_pnl 105).2.pnl = some 5 ∧
    (posLongX.calculate_pnl 105).2 ≠ posLongX := by
  refine ⟨rfl, ?_, ?_⟩
  · norm_num [Position.calculate_pnl, posLongX]
  · intro h
    have h2 := congrArg Position.pnl h
    norm_num [Position.calculate_pnl, posLongX] at h2
    exact Option.noConfusion h2

/-- Numpy float values produced by the performance metrics: finite
rationals plus the IEEE specials that numpy division can return. -/
inductive NpFloat where
  | val (q : ℚ)
  | inf
  | ninf
  | nan
deriving DecidableEq

/-- Numpy float64 division of two finite values: never raises; x/0 is a
signed infinity for x nonzero and 0/0 is NaN. -/
def npDiv (a b : ℚ) : NpFloat :=
  if b ≠ 0 then .val (a / b)
  else if 0 < a then .inf
  else if a < 0 then .ninf
  else .nan

/-- Rows of the trade history whose pnl compares greater than zero
(rows whose pnl is None/NaN compare false and are excluded, as in
pandas). -/
def winningPnls (trades : List TradeRecord) : List ℚ :=
  (trades.filterMap TradeRecord.pnl).filter (fun p => decide (0 < p))

/-- Rows of the trade history whose pnl compares less than zero. -/
def losingPnls (trades : List TradeRecord) : List ℚ :=
  (trades.filterMap TradeRecord.pnl).filter (fun p => decide (p < 0))

/-- Sum of winning P&L (np.sum of the profits column). -/
def grossProfit (trades : List TradeRecord) : ℚ :=
  (winningPnls trades).sum

/-- Sum of the absolute losing P&L (np.sum(abs(losses))). -/
def grossLossAbs (trades : List TradeRecord) : ℚ :=
  ((losingPnls trades).map (fun p => |p|)).sum

/-- PerformanceAnalyzer._calculate_profit_factor:
np.sum(profits) / np.sum(abs(losses)) under numpy division. -/
def calculate_profit_factor (trades : List TradeRecord) : NpFloat :=
  npDiv (grossProfit trades) (grossLossAbs trades)

theorem mem_winningPnls_pos (trades : List TradeRecord) (p : ℚ)
    (h : p ∈ winningPnls trades) : 0 < p := by
  have h2 := List.of_mem_filter h
  simpa using h2

theorem mem_losingPnls_neg (trades : List TradeRecord) (p : ℚ)
    (h : p ∈ losingPnls trades) : p < 0 := by
  have h2 := List.of_mem_filter h
  simpa using h2

theorem grossProfit_nonneg (trades : List TradeRecord) :
    0 ≤ grossProfit trades :=
  List.sum_nonneg (fun p hp => le_of_lt (mem_winningPnls_pos trades p hp))

theorem grossLossAbs_nonneg (trades : List TradeRecord) :
    0 ≤ grossLossAbs trades :=
  List.sum_nonneg (fun p hp => by
    obtain ⟨q, hq, rfl⟩ := List.mem_map.mp hp
    exact abs_nonneg q)

/-- C5 (amended): the profit factor is np.sum(winning pnl)/np.sum(abs of
losing pnl); when there is at least one losing trade it is the finite
non-negative quotient of gross profit by gross absolute loss; when there
are winning trades and zero losing trades it is +infinity; and when there
are neither profits nor losses it is NaN (numpy evaluates 0.0/0.0 to NaN,
not to 0, and raises no division fault). -/
theorem profit_factor_trichotomy (trades : List TradeRecord) :
    0 ≤ grossProfit trades ∧ 0 ≤ grossLossAbs trades ∧
    ((losingPnls trades ≠ [] ∧
        calculate_profit_factor trades =
          .val (grossProfit trades / grossLossAbs trades) ∧
        0 ≤ grossProfit trades / grossLossAbs trades) ∨
     (winningPnls trades ≠ [] ∧ losingPnls trades = [] ∧
        calculate_profit_factor trades = .inf) ∨
     (winningPnls trades = [] ∧ losingPnls trades = [] ∧
        calculate_profit_factor trades = .nan)) := by
  refine ⟨grossProfit_nonneg trades, grossLossAbs_nonneg trades, ?_⟩
  by_cases hl : losingPnls trades = []
  · by_cases hw : winningPnls trades = []
    · refine Or.inr (Or.inr ⟨hw, hl, ?_⟩)
      have hgp : grossProfit trades = 0 := by simp [grossProfit, hw]
      have hgl : grossLossAbs trades = 0 := by simp [grossLossAbs, hl]
      simp [calculate_profit_factor, npDiv, hgp, hgl]
    · refine Or.inr (Or.inl ⟨hw, hl, ?_⟩)
      have hgl : grossLossAbs trades = 0 := by simp [grossLossAbs, hl]
      have hgp : 0 < grossProfit trades := by
        apply List.sum_pos
        · exact fun p hp => mem_winningPnls_pos trades p hp
        · exact hw
      simp [calculate_profit_factor, npDiv, hgl, hgp, ne_of_gt hgp]
  · refine Or.inl ⟨hl, ?_, ?_⟩
    · have hgl : 0 < grossLossAbs trades := by
        apply List.sum_pos
        · intro p hp
          obtain ⟨q, hq, rfl⟩ := List.mem_map.mp hp
          exact abs_pos.mpr (ne_of_lt (mem_losingPnls_neg trades q hq))
        · simpa [grossLossAbs] using hl
      simp [calculate_profit_factor, npDiv, ne_of_gt hgl]
    · exact div_nonneg (grossProfit_nonneg trades) (grossLossAbs_nonneg trades)

/-- A closed trade whose pnl is exactly zero: neither a profit nor a
loss. -/
def tradeZeroPnl : TradeRecord :=
  { timestamp := 1, symbol := "X", action := "close", direction := "long",
    price := some 100, size := 1, pnl := some 0, cash := 1000, equity := 1000 }

/-- C5 counterexample: a history with one break-even closed trade has
neither profits nor losses, and the profit factor evaluates to NaN
(numpy 0.0/0.0), not to 0 as the claim states. -/
theorem profit_factor_zero_zero_is_nan_cex :
    calculate_profit_factor [tradeZeroPnl] = .nan ∧
    NpFloat.nan ≠ NpFloat.val 0 := by
  constructor
  · norm_num [calculate_profit_factor, grossProfit, grossLossAbs, winningPnls,
      losingPnls, tradeZeroPnl, npDiv, List.filterMap, List.filter]
  · intro h
    exact NpFloat.noConfusion h

/-- Running maximum continued from an already-accumulated maximum `m`. -/
def scanMax (m : ℚ) : List ℚ → List ℚ
  | [] => []
  | x :: xs => max m x :: scanMax (max m x) xs

/-- Expanding (prefix) maximum of an equity curve, as
`equity_curve.expanding().max()` computes it. -/
def prefixMaxes : List ℚ → List ℚ
  | [] => []
  | x :: xs => x :: scanMax x xs

/-- The drawdown series `(equity_curve - rolling_max) / rolling_max`. -/
def drawdowns (ec : List ℚ) : List ℚ :=
  (ec.zip (prefixMaxes ec)).map (fun p => (p.1 - p.2) / p.2)

/-- PerformanceAnalyzer._calculate_max_drawdown: the absolute value of the
minimum of the drawdown series; `none` models the NaN that pandas returns
for the minimum of an empty series. -/
def calculate_max_drawdown (ec : List ℚ) : Option ℚ :=
  (drawdowns ec).min?.map (fun m => |m|)

/-- The peak-decline series `(running_peak - equity) / running_peak` that
the claim describes; the drawdown series is its pointwise negation. -/
def peakDeclines (ec : List ℚ) : List ℚ :=
  (ec.zip (prefixMaxes ec)).map (fun p => (p.2 - p.1) / p.2)

theorem scanMax_length (m : ℚ) (xs : List ℚ) :
    (scanMax m xs).length = xs.length := by
  induction xs generalizing m with
  | nil => rfl
  | cons x xs ih => simp [scanMax, ih]

theorem prefixMaxes_length (ec : List ℚ) :
    (prefixMaxes ec).length = ec.length := by
  cases ec with
  | nil => rfl
  | cons x xs => simp [prefixMaxes, scanMax_length]

theorem mem_zip_scanMax (m0 : ℚ) (xs : List ℚ) (e m : ℚ)
    (h : (e, m) ∈ xs.zip (scanMax m0 xs)) :
    e ≤ m ∧ m0 ≤ m ∧ (m = m0 ∨ m ∈ xs) := by
  induction xs generalizing m0 with
  | nil => simp [scanMax] at h
  | cons y ys ih =>
    simp only [scanMax, List.zip_cons_cons, List.mem_cons] at h
    rcases h with h | h
    · have he : e = y := congrArg Prod.fst h
      have hm2 : m = max m0 y := congrArg Prod.snd h
      subst he
      subst hm2
      refine ⟨le_max_right _ _, le_max_left _ _, ?_⟩
      rcases max_choice m0 e with hc | hc
      · exact Or.inl hc
      · exact Or.inr (List.mem_cons.mpr (Or.inl hc))
    · obtain ⟨h1, h2, h3⟩ := ih (max m0 y) h
      refine ⟨h1, le_trans (le_max_left _ _) h2, ?_⟩
      rcases h3 with h3 | h3
      · rcases max_choice m0 y with hc | hc
        · exact Or.inl (h3.trans hc)
        · exact Or.inr (List.mem_cons.mpr (Or.inl (h3.trans hc)))
      · exact Or.inr (List.mem_cons.mpr (Or.inr h3))

theorem mem_zip_prefixMaxes (ec : List ℚ) (e m : ℚ)
    (h : (e, m) ∈ ec.zip (prefixMaxes ec)) : e ≤ m ∧ m ∈ ec := by
  cases ec with
  | nil => simp at h
  | cons x xs =>
    simp only [prefixMaxes, List.zip_cons_cons, List.mem_cons] at h
    rcases h with h | h
    · have he : e = x := congrArg Prod.fst h
      have hm2 : m = x := congrArg Prod.snd h
      subst he
      subst hm2
      exact ⟨le_refl _, List.mem_cons_self _ _⟩
    · obtain ⟨h1, _, h3⟩ := mem_zip_scanMax x xs e m h
      refine ⟨h1, ?_⟩
      rcases h3 with h3 | h3
      · exact h3 ▸ List.mem_cons_self _ _
      · exact List.mem_cons.mpr (Or.inr h3)

theorem scanMax_of_chain (x : ℚ) (xs : List ℚ)
    (h : List.Chain (· ≤ ·) x xs) : scanMax x xs = xs := by
  induction xs generalizing x with
  | nil => rfl
  | cons y ys ih =>
    rcases List.chain_cons.mp h with ⟨hxy, htail⟩
    simp [scanMax, max_eq_right hxy, ih y htail]

theorem prefixMaxes_of_chain (ec : List ℚ) (h : List.Chain' (· ≤ ·) ec) :
    prefixMaxes ec = ec := by
  cases ec with
  | nil => rfl
  | cons x xs => simp [prefixMaxes, scanMax_of_chain x xs h]

theorem zip_self_eq_map (l : List ℚ) : l.zip l = l.map (fun x => (x, x)) := by
  induction l with
  | nil => rfl
  | cons x xs ih => simp [ih]

theorem foldl_min_map_neg (xs : List ℚ) (x : ℚ) :
    (xs.map (fun a => -a)).foldl min (-x) = -(xs.foldl max x) := by
  induction xs generalizing x with
  | nil => rfl
  | cons y ys ih =>
    simp only [List.map_cons, List.foldl_cons]
    rw [min_neg_neg]
    exact ih (max x y)

theorem min?_map_neg (l : List ℚ) :
    (l.map (fun x => -x)).min? = l.max?.map (fun x => -x) := by
  cases l with
  | nil => rfl
  | cons x xs =>
    show some ((xs.map (fun a => -a)).foldl min (-x)) = some (-(xs.foldl max x))
    rw [foldl_min_map_neg]

theorem drawdowns_eq_neg_peakDeclines (ec : List ℚ) :
    drawdowns ec = (peakDeclines ec).map (fun x => -x) := by
  unfold drawdowns peakDeclines
  rw [List.map_map]
  congr 1
  funext p
  show (p.1 - p.2) / p.2 = -((p.2 - p.1) / p.2)
  rw [← neg_div, neg_sub]

instance : Std.Antisymm (fun a b : ℚ => a ≤ b) :=
  ⟨fun h1 h2 => le_antisymm h1 h2⟩

theorem max?_eq_some_iff_rat {l : List ℚ} {a : ℚ} :
    l.max? = some a ↔ a ∈ l ∧ ∀ b ∈ l, b ≤ a :=
  List.max?_eq_some_iff (fun _ => le_refl _) (fun _ _ => max_choice _ _)
    (fun _ _ _ => max_le_iff)

/-- C6 (amended): for every nonempty equity sequence of positive values,
the analyzer's max drawdown is defined, lies in [0, 1], is exactly the
maximum over time of (running_peak - equity)/running_peak with running_peak
the prefix maximum, and is 0 whenever the sequence is monotonically
non-decreasing.  (Positivity is needed: with a negative equity value the
magnitude can exceed 1.) -/
theorem max_drawdown_spec (ec : List ℚ) (hne : ec ≠ [])
    (hpos : ∀ x ∈ ec, 0 < x) :
    ∃ d, calculate_max_drawdown ec = some d ∧ 0 ≤ d ∧ d ≤ 1 ∧
      (peakDeclines ec).max? = some d ∧
      (List.Chain' (· ≤ ·) ec → d = 0) := by
  have hlen : (peakDeclines ec).length = ec.length := by
    simp [peakDeclines, List.length_zip, prefixMaxes_length]
  have hpdne : peakDeclines ec ≠ [] := by
    intro hcontra
    apply hne
    have := congrArg List.length hcontra
    rw [hlen] at this
    exact List.length_eq_zero.mp this
  have hbounds : ∀ b ∈ peakDeclines ec, 0 ≤ b ∧ b ≤ 1 := by
    intro b hb
    obtain ⟨p, hp, rfl⟩ := List.mem_map.mp hb
    obtain ⟨hle, hmem⟩ := mem_zip_prefixMaxes ec p.1 p.2 hp
    have hmpos : 0 < p.2 := hpos p.2 hmem
    have hepos : 0 < p.1 := by
      have : p.1 ∈ ec := (List.of_mem_zip hp).1
      exact hpos p.1 this
    constructor
    · exact div_nonneg (sub_nonneg.mpr hle) (le_of_lt hmpos)
    · rw [div_le_one hmpos]
      linarith
  obtain ⟨m, hm⟩ : ∃ m, (peakDeclines ec).max? = some m := by
    cases hx : (peakDeclines ec).max? with
    | none => exact absurd (List.max?_eq_none_iff.mp hx) hpdne
    | some m => exact ⟨m, rfl⟩
  obtain ⟨hmmem, hmub⟩ := max?_eq_some_iff_rat.mp hm
  have hm0 : 0 ≤ m := (hbounds m hmmem).1
  refine ⟨m, ?_, hm0, (hbounds m hmmem).2, hm, ?_⟩
  · unfold calculate_max_drawdown
    rw [drawdowns_eq_neg_peakDeclines, min?_map_neg, hm]
    simp [abs_of_nonneg hm0]
  · intro hchain
    have hpd : peakDeclines ec = ec.map (fun _ => (0 : ℚ)) := by
      unfold peakDeclines
      rw [prefixMaxes_of_chain ec hchain, zip_self_eq_map, List.map_map]
      congr 1
      funext x
      show (x - x) / x = 0
      rw [sub_self, zero_div]
    rw [hpd] at hmmem
    obtain ⟨_, _, h0⟩ := List.mem_map.mp hmmem
    exact h0.symm

/-- Witness for the amended max-drawdown theorem at the specification's own
scenario [100, 110, 90, 120]: the max drawdown is (110-90)/110 = 2/11
(about 0.1818). -/
theorem max_drawdown_spec_witness :
    ([(100 : ℚ), 110, 90, 120] ≠ []) ∧
    (∀ x ∈ [(100 : ℚ), 110, 90, 120], 0 < x) ∧
    calculate_max_drawdown [(100 : ℚ), 110, 90, 120] = some (2 / 11) ∧
    (∃ d, calculate_max_drawdown [(100 : ℚ), 110, 90, 120] = some d ∧
      0 ≤ d ∧ d ≤ 1 ∧
      (peakDeclines [(100 : ℚ), 110, 90, 120]).max? = some d ∧
      (List.Chain' (· ≤ ·) [(100 : ℚ), 110, 90, 120] → d = 0)) :=
  ⟨by simp,
   by norm_num,
   by norm_num [calculate_max_drawdown, drawdowns, prefixMaxes, scanMax,
     List.min?, min_def, abs, max_def],
   max_drawdown_spec [(100 : ℚ), 110, 90, 120] (by simp) (by norm_num)⟩

/-- C6 counterexample: on the equity sequence [100, -50] (a sequence with a
negative equity value) the analyzer reports max drawdown 3/2, which is not
in [0, 1], so the claimed bound does not hold for every equity sequence. -/
theorem max_drawdown_above_one_cex :
    calculate_max_drawdown [(100 : ℚ), -50] = some (3 / 2) ∧
    ¬((3 : ℚ) / 2 ≤ 1) := by
  constructor
  · norm_num [calculate_max_drawdown, drawdowns, prefixMaxes, scanMax,
      List.min?, min_def, abs, max_def]
  · norm_num

/-- position_sizing configuration
(config['risk_management']['position_sizing']). -/
structure SizingConfig where
  type : String
  fixed_volume : ℚ
deriving DecidableEq

/-- One exit rule (config['trading']['exit_rules'][...]): a type tag and a
multiplier value. -/
structure ExitRule where
  type : String
  value : ℚ
deriving DecidableEq

/-- Slice of the configuration dictionary read by the top-level
Backtester (src/backtester.py). -/
structure BTConfig where
  commission_per_lot : ℚ
  allow_consecutive_trades : Bool
  position_sizing : SizingConfig
  risk_percentage : ℚ
  stop_loss_multiplier : ℚ
  stop_loss : ExitRule
  take_profit : ExitRule
deriving DecidableEq

/-- Round-half-to-even of an exact rational to an integer, as Python's
round does on the exact value. -/
def roundHalfEven (x : ℚ) : ℤ :=
  let f := ⌊x⌋
  let r := x - f
  if r < 1 / 2 then f
  else if 1 / 2 < r then f + 1
  else if 2 ∣ f then f else f + 1

/-- Python round(x, 2). -/
def pyRound2 (x : ℚ) : ℚ :=
  (roundHalfEven (x * 100) : ℚ) / 100

/-- Backtester.calculate_position_size: a configured constant lot size in
'fixed' mode, otherwise risk_amount / (stop_loss_pips * pip_value) with
pip_value 10, rounded to two decimals.  The price argument is accepted and
ignored, as in the source. -/
def calculate_position_size (cfg : BTConfig) (balance : ℚ) (price atr : ℚ) : ℚ :=
  if cfg.position_sizing.type = "fixed" then
    cfg.position_sizing.fixed_volume
  else
    let risk_amount := balance * cfg.risk_percentage
    let stop_loss_pips := atr * cfg.stop_loss_multiplier
    let pip_value : ℚ := 10
    pyRound2 (risk_amount / (stop_loss_pips * pip_value))

/-- Backtester.calculate_exit_prices: entry ± ATR × multiplier with sign
depending on the direction; when a rule type is not 'fixed' the local
variable is never bound and the return raises NameError, modelled as
`Except.error`. -/
def calculate_exit_prices (cfg : BTConfig) (entry_price atr : ℚ)
    (position_type : String) : Except String (ℚ × ℚ) :=
  let sl? : Option ℚ :=
    if position_type = "long" then
      if cfg.stop_loss.type = "fixed" then some (entry_price - atr * cfg.stop_loss.value) else none
    else
      if cfg.stop_loss.type = "fixed" then some (entry_price + atr * cfg.stop_loss.value) else none
  let tp? : Option ℚ :=
    if position_type = "long" then
      if cfg.take_profit.type = "fixed" then some (entry_price + atr * cfg.take_profit.value) else none
    else
      if cfg.take_profit.type = "fixed" then some (entry_price - atr * cfg.take_profit.value) else none
  match sl?, tp? with
  | some sl, some tp => .ok (sl, tp)
  | _, _ => .error "NameError"

/-- Backtester.calculate_commission. -/
def calculate_commission (cfg : BTConfig) (volume : ℚ) : ℚ :=
  volume * cfg.commission_per_lot

/-- One row of the signal-annotated price data consumed by
run_backtest. -/
structure BTBar where
  time : ℕ
  close : ℚ
  low : ℚ
  high : ℚ
  atr : ℚ
  long_signal : Bool
  short_signal : Bool
deriving DecidableEq

/-- One entry of Backtester.trades. -/
structure BTTrade where
  type : String
  entry : ℚ
  exit : ℚ
  volume : ℚ
  pnl : ℚ
  commission : ℚ
  time : ℕ
deriving DecidableEq

/-- Mutable state of Backtester.run_backtest: the object fields plus the
loop-carried local variables (position / entry_price / volume / stop_loss /
take_profit persist across bars). -/
structure BTState where
  balance : ℚ
  equity_curve : List ℚ
  trades : List BTTrade
  last_trade_type : Option String
  position : Option String
  entry_price : ℚ
  volume : ℚ
  stop_loss : ℚ
  take_profit : ℚ
deriving DecidableEq

/-- Backtester.__init__ state with the loop locals at their initial
values. -/
def initBTState (initial_balance : ℚ) : BTState :=
  { balance := initial_balance, equity_curve := [], trades := [],
    last_trade_type := none, position := none, entry_price := 0,
    volume := 0, stop_loss := 0, take_profit := 0 }

/-- One iteration of the run_backtest loop: mark to market and check
stop-loss / take-profit for an open position (stop-loss checked first, exit
filled at the triggered level), then — if flat, including having just
exited on this same bar — process entry signals, where opening a position
computes size and the exit levels (which can raise NameError). -/
def runStep (cfg : BTConfig) (st : BTState) (row : BTBar) :
    Except String BTState :=
  let st1 : BTState :=
    match st.position with
    | none => st
    | some pt =>
      let unrealized := if pt = "long"
        then (row.close - st.entry_price) * st.volume * 100000
        else (st.entry_price - row.close) * st.volume * 100000
      let stm := { st with equity_curve := st.equity_curve ++ [st.balance + unrealized] }
      if pt = "long" then
        if row.low ≤ st.stop_loss ∨ row.high ≥ st.take_profit then
          let exit_price := if row.low ≤ st.stop_loss then st.stop_loss else st.take_profit
          let pnl := (exit_price - st.entry_price) * st.volume * 100000
          let commission := calculate_commission cfg st.volume
          { stm with
            balance := stm.balance + pnl - commission
            last_trade_type := some "long"
            position := none
            trades := stm.trades ++ [{ type := "long", entry := st.entry_price, exit := exit_price, volume := st.volume, pnl := pnl, commission := commission, time := row.time }] }
        else stm
      else
        if row.high ≥ st.stop_loss ∨ row.low ≤ st.take_profit then
          let exit_price := if row.high ≥ st.stop_loss then st.stop_loss else st.take_profit
          let pnl := (st.entry_price - exit_price) * st.volume * 100000
          let commission := calculate_commission cfg st.volume
          { stm with
            balance := stm.balance + pnl - commission
            last_trade_type := some "short"
            position := none
            trades := stm.trades ++ [{ type := "short", entry := st.entry_price, exit := exit_price, volume := st.volume, pnl := pnl, commission := commission, time := row.time }] }
        else stm
  match st1.position with
  | some _ => .ok st1
  | none =>
    let can_open_long := row.long_signal &&
      (cfg.allow_consecutive_trades || decide (st1.last_trade_type ≠ some "long"))
    let can_open_short := row.short_signal &&
      (cfg.allow_consecutive_trades || decide (st1.last_trade_type ≠ some "short"))
    if can_open_long then
      let volume := calculate_position_size cfg st1.balance row.close row.atr
      let entry_price := row.close
      match calculate_exit_prices cfg entry_price row.atr "long" with
      | .error e => .error e
      | .ok (sl, tp) => .ok { st1 with volume := volume, entry_price := entry_price, stop_loss := sl, take_profit := tp, position := some "long" }
    else if can_open_short then
      let volume := calculate_position_size cfg st1.balance row.close row.atr
      let entry_price := row.close
      match calculate_exit_prices cfg entry_price row.atr "short" with
      | .error e => .error e
      | .ok (sl, tp) => .ok { st1 with volume := volume, entry_price := entry_price, stop_loss := sl, take_profit := tp, position := some "short" }
    else .ok st1

/-- Backtester.run_backtest over a data series. -/
def run_backtest (cfg : BTConfig) (st : BTState) (data : List BTBar) :
    Except String BTState :=
  data.foldlM (runStep cfg) st

/-- Resulting state of a long stop-loss exit on one bar. -/
def longStopExitState (cfg : BTConfig) (st : BTState) (row : BTBar) : BTState :=
  { st with
    equity_curve := st.equity_curve ++ [st.balance + (row.close - st.entry_price) * st.volume * 100000]
    balance := st.balance + (st.stop_loss - st.entry_price) * st.volume * 100000 - calculate_commission cfg st.volume
    last_trade_type := some "long"
    position := none
    trades := st.trades ++ [{ type := "long", entry := st.entry_price, exit := st.stop_loss, volume := st.volume, pnl := (st.stop_loss - st.entry_price) * st.volume * 100000, commission := calculate_commission cfg st.volume, time := row.time }] }

/-- Resulting state of a short stop-loss exit on one bar. -/
def shortStopExitState (cfg : BTConfig) (st : BTState) (row : BTBar) : BTState :=
  { st with
    equity_curve := st.equity_curve ++ [st.balance + (st.entry_price - row.close) * st.volume * 100000]
    balance := st.balance + (st.entry_price - st.stop_loss) * st.volume * 100000 - calculate_commission cfg st.volume
    last_trade_type := some "short"
    position := none
    trades := st.trades ++ [{ type := "short", entry := st.entry_price, exit := st.stop_loss, volume := st.volume, pnl := (st.entry_price - st.stop_loss) * st.volume * 100000, commission := calculate_commission cfg st.volume, time := row.time }] }

/-- C4 (amended): on a signal-free bar, an open long whose bar low reaches
the stop-loss level exits exactly at the stop-loss price — regardless of
whether the bar high also reaches the take-profit level, and never at bar
close — with pnl (stop_loss − entry) × volume × 100000 before commission
(the engine applies the 100000 contract-units-per-lot multiplier, so the
scenario's pnl is −300000, not −3); the symmetric rule holds for an open
short whose bar high reaches its stop-loss level. -/
theorem stop_loss_priority (cfg : BTConfig) (st : BTState) (row : BTBar)
    (hnl : row.long_signal = false) (hns : row.short_signal = false) :
    (st.position = some "long" → row.low ≤ st.stop_loss →
      runStep cfg st row = .ok (longStopExitState cfg st row)) ∧
    (st.position = some "short" → st.stop_loss ≤ row.high →
      runStep cfg st row = .ok (shortStopExitState cfg st row)) := by
  constructor
  · intro hpos hlow
    simp [runStep, hpos, hlow, hnl, hns, longStopExitState, ge_iff_le]
  · intro hpos hhigh
    simp [runStep, hpos, hhigh, hnl, hns, shortStopExitState, ge_iff_le]

/-- Configuration of the specification scenario: fixed volume 1, ATR stop
multiplier 1.5, take multiplier 2, zero commission. -/
def cfgScenario : BTConfig :=
  { commission_per_lot := 0, allow_consecutive_trades := true,
    position_sizing := { type := "fixed", fixed_volume := 1 },
    risk_percentage := 1/100, stop_loss_multiplier := 3/2,
    stop_loss := { type := "fixed", value := 3/2 },
    take_profit := { type := "fixed", value := 2 } }

/-- Bar carrying the long entry signal at close 100 with ATR 2. -/
def barEntry : BTBar :=
  { time := 0, close := 100, low := 100, high := 100, atr := 2,
    long_signal := true, short_signal := false }

/-- Bar with low 96 and high 105: it crosses both the stop-loss 97 and the
take-profit 104. -/
def barExit : BTBar :=
  { time := 1, close := 100, low := 96, high := 105, atr := 2,
    long_signal := false, short_signal := false }

/-- State holding the open long of the scenario: entry 100, volume 1,
stop_loss 97, take_profit 104. -/
def stOpenLong : BTState :=
  { balance := 10000, equity_curve := [10000], trades := [],
    last_trade_type := none, position := some "long", entry_price := 100,
    volume := 1, stop_loss := 97, take_profit := 104 }

theorem stop_loss_priority_witness :
    barExit.long_signal = false ∧ barExit.short_signal = false ∧
    stOpenLong.position = some "long" ∧ barExit.low ≤ stOpenLong.stop_loss ∧
    runStep cfgScenario stOpenLong barExit =
      .ok (longStopExitState cfgScenario stOpenLong barExit) :=
  ⟨rfl, rfl, rfl, by norm_num [barExit, stOpenLong],
   (stop_loss_priority cfgScenario stOpenLong barExit rfl rfl).1 rfl
     (by norm_num [barExit, stOpenLong])⟩

/-- C4 counterexample: running the scenario (long entered at close 100 with
size 1, ATR 2, multipliers 1.5 and 2, then a bar with low 96 and high 105)
does exit at the stop-loss 97 with stop-loss priority, but the recorded pnl
is (97 − 100) × 1 × 100000 = −300000 before costs, not −3 as the claim
computes. -/
theorem stop_priority_scenario_cex :
    calculate_exit_prices cfgScenario 100 2 "long" = .ok (97, 104) ∧
    (run_backtest cfgScenario (initBTState 10000) [barEntry, barExit]).map
      (fun st => st.trades.map (fun t => (t.exit, t.pnl))) = .ok [(97, -300000)] ∧
    (-300000 : ℚ) ≠ -3 := by
  refine ⟨?_, ?_, by norm_num⟩
  · norm_num [calculate_exit_prices, cfgScenario]
  · norm_num [run_backtest, List.foldlM, runStep, initBTState, cfgScenario,
      barEntry, barExit, calculate_position_size, calculate_exit_prices,
      calculate_commission, Except.map, Except.bind, bind, pure, Except.pure]

/-- Signal dictionary produced by a strategy for the event engine. -/
structure Signal where
  symbol : String
  direction : String
  price : ℚ
  volume : ℚ
deriving DecidableEq

/-- One OHLC row consumed by BacktestEngine.update_positions. -/
structure EngBar where
  time : ℕ
  close : ℚ
  low : ℚ
  high : ℚ
deriving DecidableEq

/-- Trading-cost configuration (config['trading_costs']); every present
key enables one cost component in TradingCostManager. -/
structure CostConfig where
  commission_rate : Option ℚ
  spread_points : Option ℚ
  point_value : Option ℚ
  slippage_pips : Option ℚ
deriving DecidableEq

/-- TradingCostManager.calculate_total_cost: the sum of the configured
component costs (commission rate × notional, spread points × point value,
slippage pips/10000 × notional). -/
def calculate_total_cost (cc : CostConfig) (trade_value : ℚ) : ℚ :=
  (match cc.commission_rate with | some r => trade_value * r | none => 0) +
  (match cc.spread_points, cc.point_value with
   | some sp, some pv => sp * pv
   | _, _ => 0) +
  (match cc.slippage_pips with | some s => trade_value * (s / 10000) | none => 0)

/-- Slice of the engine configuration dictionary: risk management keys,
trading costs and the nested indicators dict that the optimizer updates
(`none` models a config without an 'indicators' key). -/
structure EngConfig where
  initial_capital : ℚ
  risk_percentage : ℚ
  stop_loss_multiplier : ℚ
  take_profit_multiplier : ℚ
  max_open_trades : ℕ
  trading_costs : CostConfig
  indicators : Option (List (String × ℚ))
deriving DecidableEq

/-- One record of BacktestEngine.history (engine._record_trade). -/
structure EngTradeRecord where
  timestamp : ℕ
  symbol : String
  direction : String
  action : String
  price : Option ℚ
  size : ℚ
  pnl : Option ℚ
  equity : ℚ
deriving DecidableEq

/-- Mutable state of a BacktestEngine instance: its portfolio, its flat
list of open positions, its trade history and its configuration. -/
structure EngState where
  portfolio : Portfolio
  positions : List Position
  history : List EngTradeRecord
  config : EngConfig
deriving DecidableEq

/-- BacktestEngine._can_open_position: funds for price × signal volume and
the global open-positions cap. -/
def can_open_position (eng : EngState) (sig : Signal) : Bool :=
  eng.portfolio.has_sufficient_funds (sig.price * sig.volume) &&
  decide (eng.positions.length < eng.config.max_open_trades)

/-- BacktestEngine._calculate_position_size: the signal volume capped by
risk_per_trade / (price × stop_loss_multiplier) with risk_per_trade =
equity × risk_percentage. -/
def engine_position_size (eng : EngState) (sig : Signal) : ℚ :=
  let risk_per_trade := eng.portfolio.equity * eng.config.risk_percentage
  min sig.volume (risk_per_trade / (sig.price * eng.config.stop_loss_multiplier))

/-- BacktestEngine._record_trade appended to the engine history (distinct
from the portfolio's own trade log). -/
def engine_record_trade (eng : EngState) (position : Position) (action : String)
    (exit_price : Option ℚ) (pnl : Option ℚ) : EngState :=
  { eng with history := eng.history ++
      [{ timestamp := position.timestamp
         symbol := position.symbol
         direction := position.direction
         action := action
         price := if action = "open" then some position.entry_price else exit_price
         size := position.size
         pnl := if action = "close" then pnl else none
         equity := eng.portfolio.equity }] }

/-- BacktestEngine.process_signals: eligibility checks, position sizing,
trading costs, then Portfolio.add_position (whose ValueError would
propagate), appending to the engine position list and recording an "open"
trade. -/
def process_signals (eng : EngState) (sig? : Option Signal) (timestamp : ℕ) :
    Except String EngState :=
  match sig? with
  | none => .ok eng
  | some sig =>
    if !(can_open_position eng sig) then .ok eng
    else
      let position_size := engine_position_size eng sig
      if position_size ≤ 0 then .ok eng
      else
        let trade_value := sig.price * position_size
        let costs := calculate_total_cost eng.config.trading_costs trade_value
        if !(eng.portfolio.has_sufficient_funds (trade_value + costs)) then .ok eng
        else
          let position : Position :=
            { symbol := sig.symbol, direction := sig.direction,
              entry_price := sig.price, size := position_size, timestamp := timestamp }
          match eng.portfolio.add_position position with
          | .error e => .error e
          | .ok pf2 =>
            let eng2 := { eng with portfolio := pf2, positions := eng.positions ++ [position] }
            .ok (engine_record_trade eng2 position "open" none none)

/-- BacktestEngine._should_close_position: entry-price-relative stop/take
levels crossed by the bar range. -/
def should_close_position (eng : EngState) (position : Position) (row : EngBar) : Bool :=
  if position.direction = "long" then
    let stop_loss := position.entry_price * (1 - eng.config.stop_loss_multiplier)
    let take_profit := position.entry_price * (1 + eng.config.take_profit_multiplier)
    decide (row.low ≤ stop_loss) || decide (row.high ≥ take_profit)
  else
    let stop_loss := position.entry_price * (1 + eng.config.stop_loss_multiplier)
    let take_profit := position.entry_price * (1 - eng.config.take_profit_multiplier)
    decide (row.high ≥ stop_loss) || decide (row.low ≤ take_profit)

/-- BacktestEngine._close_position: exit at bar close, calculate_pnl
(mutating the position), Portfolio.remove_position, removal from the
engine position list, and a "close" trade record. -/
def close_position (eng : EngState) (position : Position) (row : EngBar)
    (now : ℕ) : EngState :=
  let exit_price := row.close
  let pnl := (position.calculate_pnl exit_price).1
  let pos2 := (position.calculate_pnl exit_price).2
  let pf2 := eng.portfolio.remove_position pos2 exit_price now
  let eng2 := { eng with portfolio := pf2, positions := eng.positions.erase position }
  engine_record_trade eng2 (pos2.close exit_price now) "close" (some exit_price) (some pnl)

/-- BacktestEngine.update_positions: iterate a snapshot of the open
position list, closing every position whose exit condition holds. -/
def update_positions (eng : EngState) (row : EngBar) (now : ℕ) : EngState :=
  eng.positions.foldl
    (fun e p => if should_close_position e p row then close_position e p row now else e)
    eng

/-- A deterministic strategy, modelled by the signal dictionary it returns
after having seen a data prefix (the combined effect of initialize /
on_data / generate_signals for strategies without cross-run state); `none`
models an empty signal dict. -/
structure Strategy where
  generateSignals : List EngBar → Option Signal

/-- Slice of the PerformanceAnalyzer.calculate result mapping used by the
optimizer claims: the closed-trade count and 'Final Equity' (the equity
passed in by the engine). -/
structure PerfResult where
  total_trades : ℕ
  final_equity : ℚ
deriving DecidableEq

/-- PerformanceAnalyzer.calculate returns an empty mapping for an empty
trade history (modelled as `none`), otherwise the metric mapping. -/
def performance_calculate (history : List EngTradeRecord) (final_equity : ℚ) :
    Option PerfResult :=
  if history = [] then none
  else some
    { total_trades := (history.filter (fun t => decide (t.action = "close"))).length
      final_equity := final_equity }

/-- Loop of VectorizedBacktestEngine.run: per row, feed the strategy the
data prefix up to and including the row, update open positions, then
process the generated signals. -/
def vector_run_loop (strategy : Strategy) (seen : List EngBar) (eng : EngState) :
    List EngBar → Except String EngState
  | [] => .ok eng
  | row :: rest =>
    let seen2 := seen ++ [row]
    let eng2 := update_positions eng row row.time
    match process_signals eng2 (strategy.generateSignals seen2) row.time with
    | .error e => .error e
    | .ok eng3 => vector_run_loop strategy seen2 eng3 rest

/-- VectorizedBacktestEngine.run: the bar loop followed by
performance.calculate over the engine's (accumulated) history and current
portfolio equity.  Returns the results together with the engine state the
run leaves behind. -/
def vector_engine_run (eng : EngState) (strategy : Strategy)
    (data : List EngBar) : Except String (Option PerfResult × EngState) :=
  match vector_run_loop strategy [] eng data with
  | .error e => .error e
  | .ok eng2 => .ok (performance_calculate eng2.history eng2.portfolio.equity, eng2)

/-- Python float comparison a > b as used by max(key=...): NaN compares
false against everything. -/
def npGt : NpFloat → NpFloat → Bool
  | .nan, _ => false
  | _, .nan => false
  | .inf, .inf => false
  | .inf, _ => true
  | _, .inf => false
  | .ninf, _ => false
  | .val _, .ninf => true
  | .val a, .val b => decide (b < a)

/-- Python dict.update on an association list: overwrite existing keys,
append new ones. -/
def dictUpdate (d : List (String × ℚ)) (new : List (String × ℚ)) :
    List (String × ℚ) :=
  new.foldl (fun acc kv => dictInsert acc kv.1 kv.2) d

/-- One entry of BaseOptimizer.results: the evaluated parameter set, the
metric mapping and its objective score. -/
structure EvalRecord where
  params : List (String × ℚ)
  metrics : Option PerfResult
  score : NpFloat
deriving DecidableEq

/-- Static collaborators of a BaseOptimizer: the strategy instance its
strategy_class produces, the shared price series, and the pluggable
objective function over the performance result. -/
structure OptimizerSetup where
  strategy_inst : Strategy
  data : List EngBar
  objective_func : Option PerfResult → NpFloat

/-- BaseOptimizer.evaluate_params: takes a shallow copy of the shared
engine's config and updates its nested indicators dict (the update reaches
the engine's own config through the shared nested dict; a config without
an 'indicators' key raises KeyError), then runs the SHARED engine over the
shared data, appends (params, metrics, score) to results and returns the
score.  There is no exception handler: any error propagates to the
caller. -/
def evaluate_params (opt : OptimizerSetup) (eng : EngState)
    (results : List EvalRecord) (params : List (String × ℚ)) :
    Except String (NpFloat × EngState × List EvalRecord) :=
  match eng.config.indicators with
  | none => .error "KeyError: indicators"
  | some ind =>
    let cfg2 := { eng.config with indicators := some (dictUpdate ind params) }
    let eng1 := { eng with config := cfg2 }
    match vector_engine_run eng1 opt.strategy_inst opt.data with
    | .error e => .error e
    | .ok (res, eng2) =>
      let score := opt.objective_func res
      .ok (score, eng2, results ++ [{ params := params, metrics := res, score := score }])

/-- Cartesian product of the candidate lists in itertools.product order
(first parameter varies slowest). -/
def gridCombos (space : List (String × List ℚ)) : List (List (String × ℚ)) :=
  match space with
  | [] => [[]]
  | (name, values) :: rest =>
    (values.map (fun v => (gridCombos rest).map (fun combo => (name, v) :: combo))).flatten

/-- BaseOptimizer.get_best_params: the first-seen entry with the maximal
score under Python float comparison; empty dict when no results. -/
def get_best_params (results : List EvalRecord) : List (String × ℚ) :=
  match results with
  | [] => []
  | r :: rest =>
    (rest.foldl (fun best x => if npGt x.score best.score then x else best) r).params

/-- The evaluation loop of GridSearchOptimizer.optimize: evaluate each
combination in order, threading the shared engine state and the results
list; an evaluation error aborts the loop. -/
def run_evaluations (opt : OptimizerSetup) :
    List (List (String × ℚ)) → EngState → List EvalRecord →
    Except String (EngState × List EvalRecord)
  | [], eng, results => .ok (eng, results)
  | params :: rest, eng, results =>
    match evaluate_params opt eng results params with
    | .error e => .error e
    | .ok (_, eng2, results2) => run_evaluations opt rest eng2 results2

/-- GridSearchOptimizer.optimize: evaluates every combination of the
parameter space and returns get_best_params, together with the final
engine state and the accumulated results. -/
def optimize (opt : OptimizerSetup) (space : List (String × List ℚ))
    (eng : EngState) :
    Except String (List (String × ℚ) × EngState × List EvalRecord) :=
  match run_evaluations opt (gridCombos space) eng [] with
  | .error e => .error e
  | .ok (eng2, results) => .ok (get_best_params results, eng2, results)

/-- Strategy producing no signals. -/
def silentStrategy : Strategy := ⟨fun _ => none⟩

/-- Cost configuration with every component disabled. -/
def costsOff : CostConfig :=
  { commission_rate := none, spread_points := none, point_value := none,
    slippage_pips := none }

/-- Engine whose configuration has no 'indicators' key, so the first
evaluate_params call raises KeyError. -/
def engFail : EngState :=
  { portfolio := Portfolio.init 10000
    positions := []
    history := []
    config := { initial_capital := 10000, risk_percentage := 1/10, stop_loss_multiplier := 1/2, take_profit_multiplier := 1/2, max_open_trades := 5, trading_costs := costsOff, indicators := none } }

/-- Optimizer setup over the failing engine. -/
def optFail : OptimizerSetup :=
  { strategy_inst := silentStrategy, data := [],
    objective_func := fun _ => .ninf }

/-- C8 (amended): an evaluation that raises an internal error is not
caught anywhere: evaluate_params has no handler, so the exception
propagates out of GridSearchOptimizer.optimize, no score (negative
infinity or otherwise) is recorded for it, and the remaining combinations
are never evaluated. -/
theorem evaluation_error_aborts_search (opt : OptimizerSetup) (eng : EngState)
    (space : List (String × List ℚ)) (params : List (String × ℚ))
    (rest : List (List (String × ℚ))) (e : String)
    (hcombos : gridCombos space = params :: rest)
    (herr : evaluate_params opt eng [] params = .error e) :
    optimize opt space eng = .error e := by
  simp [optimize, run_evaluations, hcombos, herr]

theorem evaluation_error_aborts_search_witness :
    gridCombos [("w", [1, 2])] = [("w", (1 : ℚ))] :: [[("w", 2)]] ∧
    evaluate_params optFail engFail [] [("w", 1)] = .error "KeyError: indicators" ∧
    optimize optFail [("w", [1, 2])] engFail = .error "KeyError: indicators" :=
  ⟨rfl, rfl,
   evaluation_error_aborts_search optFail engFail [("w", [1, 2])]
     [("w", 1)] [[("w", 2)]] "KeyError: indicators" rfl rfl⟩

/-- C8 counterexample: with the indicators key missing from the engine
configuration, the first evaluation raises KeyError and
GridSearchOptimizer.optimize aborts with that error — it does not record a
negative-infinity score and does not continue with the second
combination. -/
theorem optimizer_error_propagates_cex :
    optimize optFail [("w", [1, 2])] engFail = .error "KeyError: indicators" ∧
    (optimize optFail [("w", [1, 2])] engFail).isOk = false := by
  exact ⟨rfl, rfl⟩

/-- Strategy that always signals a 1-unit long in "X" at price 10. -/
def constLongStrategy : Strategy :=
  ⟨fun _ => some { symbol := "X", direction := "long", price := 10, volume := 1 }⟩

/-- A quiet bar around price 10 that triggers no stop-loss or
take-profit. -/
def quietBar : EngBar := { time := 0, close := 10, low := 9, high := 11 }

/-- Shared engine configuration with an (empty) indicators dict. -/
def cfgShared : EngConfig :=
  { initial_capital := 10000, risk_percentage := 1/10, stop_loss_multiplier := 1/2, take_profit_multiplier := 1/2, max_open_trades := 5, trading_costs := costsOff, indicators := some [] }

/-- The one engine instance every optimizer evaluation reuses. -/
def engShared : EngState :=
  { portfolio := Portfolio.init 10000
    positions := []
    history := []
    config := cfgShared }

/-- Optimizer setup scoring each run by the 'Final Equity' entry of the
performance mapping (negative infinity when the mapping is empty). -/
def optShared : OptimizerSetup :=
  { strategy_inst := constLongStrategy
    data := [quietBar]
    objective_func := fun res => match res with
      | some r => .val r.final_equity
      | none => .ninf }

/-- Score recorded for a given parameter set in an optimizer results
list. -/
def scoreOf (results : List EvalRecord) (params : List (String × ℚ)) :
    Option NpFloat :=
  (results.find? (fun r => decide (r.params = params))).map (fun r => r.score)

/-- C9 counterexample: the grid spaces [("w", [1, 2])] and [("w", [2, 1])]
evaluate the same two parameter sets in opposite orders, yet the score
recorded for the parameter set w=1 differs (9990 when it is evaluated
first, 9980 when second): evaluations are not order-independent, because
every evaluation reuses the same engine whose portfolio state carries
over. -/
theorem grid_order_affects_score_cex :
    (optimize optShared [("w", [1, 2])] engShared).map
      (fun t => scoreOf t.2.2 [("w", 1)]) = .ok (some (.val 9990)) ∧
    (optimize optShared [("w", [2, 1])] engShared).map
      (fun t => scoreOf t.2.2 [("w", 1)]) = .ok (some (.val 9980)) ∧
    NpFloat.val 9990 ≠ NpFloat.val 9980 := by
  refine ⟨?_, ?_, by simp⟩ <;>
  norm_num [optimize, run_evaluations, gridCombos, get_best_params, npGt, scoreOf,
    List.find?, evaluate_params, optShared, engShared, cfgShared, costsOff, quietBar,
    constLongStrategy, dictUpdate, dictInsert, vector_engine_run, vector_run_loop,
    update_positions, should_close_position, close_position, process_signals,
    can_open_position, engine_position_size,
    calculate_total_cost, engine_record_trade, performance_calculate,
    Portfolio.init, Portfolio.add_position, Portfolio.has_sufficient_funds,
    Portfolio.update_equity, Portfolio.record_trade, Position.get_value,
    Position.get_unrealized_pnl, Position.calculate_pnl, Except.map, min_def,
    List.cons_ne_nil, List.filter_cons, List.filter_nil]

/-- C9 (amended): grid-search evaluations are not pure functions of the
price series and the parameter set alone — BaseOptimizer reuses one shared
engine object, so the portfolio (cash, open positions) and trade history
left by one evaluation are the starting state of the next: after
evaluating w=1 the shared engine still holds the open "X" position, cash
9990 and one history record, and the following evaluation of w=2 therefore
scores 9980 instead of 9990. -/
theorem evaluations_share_engine_state :
    (evaluate_params optShared engShared [] [("w", 1)]).map
      (fun t => (t.2.1.portfolio.cash, (dictGet? t.2.1.portfolio.positions "X").isSome,
                 t.2.1.positions.length, t.2.1.history.length)) =
      .ok (9990, true, 1, 1) ∧
    (optimize optShared [("w", [1, 2])] engShared).map
      (fun t => t.2.2.map (fun r => (r.params, r.score))) =
      .ok [([("w", 1)], .val 9990), ([("w", 2)], .val 9980)] := by
  constructor <;>
  norm_num [optimize, run_evaluations, gridCombos, get_best_params, npGt,
    List.find?, evaluate_params, optShared, engShared, cfgShared, costsOff, quietBar,
    constLongStrategy, dictUpdate, dictInsert, vector_engine_run, vector_run_loop,
    update_positions, should_close_position, close_position, process_signals,
    can_open_position, engine_position_size,
    calculate_total_cost, engine_record_trade, performance_calculate,
    Portfolio.init, Portfolio.add_position, Portfolio.has_sufficient_funds,
    Portfolio.update_equity, Portfolio.record_trade, Position.get_value,
    Position.get_unrealized_pnl, Position.calculate_pnl, Except.map, min_def,
    List.cons_ne_nil, List.filter_cons, List.filter_nil, dictGet?]
